import Mathlib

/-!
# Ride-App: a shallow embedding of `src/app.js`

The program is a browser demo built from three patterns:

* observer: `RideRequest` (subject) and `Rider` (observer);
* strategy: `NormalFare`, `SurgePricing`, `DiscountedFare` behind `FareCalculator`;
* command: `BookRideCommand`, `CancelRideCommand`, `RateRideCommand` over `RideService`.

JavaScript objects have identity and arrays are mutable heap objects, so the
embedding keeps an explicit heap of arrays: `this.observers` is a reference,
`push` mutates the referenced array in place, `filter` allocates a fresh array,
and `forEach` walks the array object it was called on with the length it read
at the start.  Numbers are taken in exact arithmetic (`ℚ`).
-/

namespace RideApp

/-! ## Observers -/

/-- Identity of an observer object (what `!==` compares). -/
abbrev ObsId := Nat

/-- A call that an observer's `update` may make on the request it observes. -/
inductive Act where
  | subscribe (o : ObsId)
  | unsubscribe (o : ObsId)
  deriving DecidableEq, Repr

/-- Instance of `class Rider`: `constructor(name) { this.name = name; }`. -/
structure Rider where
  name : String
  deriving DecidableEq, Repr

/-- An object with an `update(status)` method.  `rider` is the only class of
the source; `scripted` is any other observer whose `update`, given the status,
performs a finite sequence of `subscribe`/`unsubscribe` calls on the request. -/
inductive Observer where
  | rider (r : Rider)
  | scripted (body : String → List Act)

/-- The objects behind the observer identities. -/
abbrev Objects := ObsId → Observer

/-- The calls on the request that `update(status)` of an object performs:
none for a `Rider`, whose `update` only writes the page. -/
def Observer.acts : Observer → String → List Act
  | .rider _, _ => []
  | .scripted body, status => body status

/-! ## State -/

/-- Fields of `class RideRequest`: `this.observers` (a reference to an array
object in the heap) and `this.status`. -/
structure RideRequest where
  observers : Nat
  status : String
  deriving DecidableEq, Repr

/-- Everything the observer/command half of the program reads or writes:
the array heap, the request, the `innerText` of element `rideStatus`, the
console output, and a record of every `update` invocation (observer, argument)
in the order the invocations happen. -/
structure Machine where
  heap : List (List ObsId)
  request : RideRequest
  rideStatus : String
  console : List String
  calls : List (ObsId × String)
  deriving DecidableEq, Repr

/-- Contents of the array object at address `a` (empty for a dangling address). -/
def Machine.arrayAt (m : Machine) (a : Nat) : List ObsId :=
  (m.heap[a]?).getD []

/-- Contents of the array currently referenced by `this.observers`. -/
def Machine.observerList (m : Machine) : List ObsId :=
  m.arrayAt m.request.observers

/-- The reference `this.observers` points at an allocated array. -/
def Machine.WF (m : Machine) : Prop :=
  m.request.observers < m.heap.length

instance (m : Machine) : Decidable m.WF := by
  unfold Machine.WF; infer_instance

/-- State after `new RideRequest()` in a fresh page:
`this.observers = []; this.status = "Pending";`. -/
def RideRequest.new : Machine :=
  { heap := [[]]
    request := { observers := 0, status := "Pending" }
    rideStatus := ""
    console := []
    calls := [] }

/-! ## `RideRequest` methods -/

/-- `subscribe(observer) { this.observers.push(observer); }`:
in-place append to the referenced array. -/
def RideRequest.subscribe (o : ObsId) (m : Machine) : Machine :=
  { m with heap := m.heap.set m.request.observers (m.observerList ++ [o]) }

/-- `unsubscribe(observer) { this.observers = this.observers.filter(o => o !== observer); }`:
`filter` allocates a new array, the field is re-pointed to it, the old array
object is left untouched. -/
def RideRequest.unsubscribe (o : ObsId) (m : Machine) : Machine :=
  { m with
    heap := m.heap ++ [m.observerList.filter (fun x => x != o)]
    request := { m.request with observers := m.heap.length } }

/-- One call made from inside an `update` body. -/
def Act.run : Act → Machine → Machine
  | .subscribe o, m => RideRequest.subscribe o m
  | .unsubscribe o, m => RideRequest.unsubscribe o m

/-- A sequence of calls, first to last. -/
def runActs : List Act → Machine → Machine
  | [], m => m
  | a :: as, m => runActs as (a.run m)

/-- `Rider.update(status)`:
`document.getElementById("rideStatus").innerText = "Hello <name>, your ride is now: <status>"`. -/
def Rider.update (r : Rider) (status : String) (m : Machine) : Machine :=
  { m with rideStatus := "Hello " ++ r.name ++ ", your ride is now: " ++ status }

/-- Invocation `observer.update(status)`: it is recorded in `calls`, then the
method body of the object runs. -/
def Observer.update (w : Objects) (o : ObsId) (status : String) (m : Machine) : Machine :=
  let m1 := { m with calls := m.calls ++ [(o, status)] }
  match w o with
  | .rider r => r.update status m1
  | .scripted body => runActs (body status) m1

/-- Loop of `Array.prototype.forEach` on the array object at address `arr`:
`n` iterations remain, `k` is the current index.  Each iteration reads
element `k` of the array as it is at that moment and, if present, calls
`observer => observer.update(this.status)` on it. -/
def forEachFrom (w : Objects) (arr : Nat) : Nat → Nat → Machine → Machine
  | 0, _, m => m
  | n + 1, k, m =>
    match (m.arrayAt arr)[k]? with
    | some o => forEachFrom w arr n (k + 1) (Observer.update w o m.request.status m)
    | none => forEachFrom w arr n (k + 1) m

/-- `notify() { this.observers.forEach(observer => observer.update(this.status)); }`:
the receiver `this.observers` and its length are read once, before the loop. -/
def RideRequest.notify (w : Objects) (m : Machine) : Machine :=
  forEachFrom w m.request.observers m.observerList.length 0 m

/-- `setStatus(status) { this.status = status; this.notify(); }`. -/
def RideRequest.setStatus (w : Objects) (status : String) (m : Machine) : Machine :=
  RideRequest.notify w { m with request := { m.request with status := status } }

/-! ## Command pattern -/

/-- `RideService.bookRide()`: logs and returns `"Booked"`. -/
def RideService.bookRide (m : Machine) : String × Machine :=
  ("Booked", { m with console := m.console ++ ["Ride booked"] })

/-- `RideService.cancelRide()`: logs and returns `"Canceled"`. -/
def RideService.cancelRide (m : Machine) : String × Machine :=
  ("Canceled", { m with console := m.console ++ ["Ride canceled"] })

/-- `RideService.rateRide()`: logs and returns `"Rated"`. -/
def RideService.rateRide (m : Machine) : String × Machine :=
  ("Rated", { m with console := m.console ++ ["Ride rated"] })

/-- The three concrete command classes, each bound to the service and the
request of the machine. -/
inductive Command where
  | BookRideCommand
  | CancelRideCommand
  | RateRideCommand
  deriving DecidableEq, Repr

/-- `execute()`: `const result = this.service.<op>(); this.request.setStatus(result);`. -/
def Command.execute (w : Objects) : Command → Machine → Machine
  | .BookRideCommand, m =>
    let (result, m1) := RideService.bookRide m
    RideRequest.setStatus w result m1
  | .CancelRideCommand, m =>
    let (result, m1) := RideService.cancelRide m
    RideRequest.setStatus w result m1
  | .RateRideCommand, m =>
    let (result, m1) := RideService.rateRide m
    RideRequest.setStatus w result m1

/-! ## Strategy pattern -/

/-- A thrown JavaScript exception: the engine's `TypeError` (property access on
`undefined`) or `new Error(message)`. -/
inductive JsError where
  | typeError
  | error (message : String)
  deriving DecidableEq, Repr

/-- The `name` property of the thrown error object. -/
def JsError.name : JsError → String
  | .typeError => "TypeError"
  | .error _ => "Error"

/-- The strategy classes: the base class `FareStrategy` (`base`) and its three
subclasses. -/
inductive FareStrategy where
  | base
  | NormalFare
  | SurgePricing
  | DiscountedFare
  deriving DecidableEq, Repr

/-- `calculate(distance)` of each class; the base class throws
`new Error("Implement in subclass")`. -/
def FareStrategy.calculate : FareStrategy → ℚ → Except JsError ℚ
  | .base, _ => .error (.error "Implement in subclass")
  | .NormalFare, distance => .ok (distance * 10)
  | .SurgePricing, distance => .ok (distance * 15)
  | .DiscountedFare, distance => .ok (distance * 8)

/-- `class FareCalculator`: it has no constructor, so `this.strategy` is
`undefined` (`none`) until `setStrategy` runs. -/
structure FareCalculator where
  strategy : Option FareStrategy
  deriving DecidableEq, Repr

/-- `new FareCalculator()`. -/
def FareCalculator.new : FareCalculator := { strategy := none }

/-- `setStrategy(strategy) { this.strategy = strategy; }`. -/
def FareCalculator.setStrategy (fc : FareCalculator) (strategy : FareStrategy) : FareCalculator :=
  { fc with strategy := some strategy }

/-- `calculateFare(distance) { return this.strategy.calculate(distance); }`:
reading `.calculate` off `undefined` throws a `TypeError`. -/
def FareCalculator.calculateFare (fc : FareCalculator) (distance : ℚ) : Except JsError ℚ :=
  match fc.strategy with
  | none => .error .typeError
  | some s => s.calculate distance

/-- The `switch (fareSelector.value)` of the change handler. -/
def selectStrategy (value : String) : FareStrategy :=
  if value = "surge" then .SurgePricing
  else if value = "discount" then .DiscountedFare
  else .NormalFare

/-- The `change` handler of `fareSelector`: choose the strategy, install it,
compute the fare for distance 5.  Returns the calculator afterwards and the
value handed to `alert`. -/
def fareSelectorChange (fc : FareCalculator) (value : String) :
    FareCalculator × Except JsError ℚ :=
  let strategy := selectStrategy value
  let fc1 := fc.setStrategy strategy
  (fc1, fc1.calculateFare 5)

/-- Successive calls `setStatus(s1); ...; setStatus(sN)`. -/
def setStatusAll (w : Objects) : List String → Machine → Machine
  | [], m => m
  | s :: ss, m => setStatusAll w ss (RideRequest.setStatus w s m)

/-- A call on the public interface of `RideRequest`. -/
inductive Op where
  | subscribe (o : ObsId)
  | unsubscribe (o : ObsId)
  | setStatus (status : String)
  deriving DecidableEq, Repr

/-- Perform one interface call. -/
def Op.run (w : Objects) : Op → Machine → Machine
  | .subscribe o, m => RideRequest.subscribe o m
  | .unsubscribe o, m => RideRequest.unsubscribe o m
  | .setStatus s, m => RideRequest.setStatus w s m

/-- Perform a sequence of interface calls, first to last. -/
def runOps (w : Objects) : List Op → Machine → Machine
  | [], m => m
  | op :: ops, m => runOps w ops (op.run w m)

/-- The `update` invocations received by observer `o`, in order. -/
def callsTo (o : ObsId) (calls : List (ObsId × String)) : List String :=
  (calls.filter (fun c => c.1 == o)).map (fun c => c.2)

/-- App setup: `rideRequest = new RideRequest(); rideRequest.subscribe(rider);`. -/
def appSetup (rider : ObsId) : Machine :=
  RideRequest.subscribe rider RideRequest.new

/-- The click handler of `bookBtn`: `new BookRideCommand(service, rideRequest).execute()`. -/
def bookBtnClick (w : Objects) (m : Machine) : Machine :=
  Command.execute w .BookRideCommand m

/-! ## Auxiliary notions used in the statements -/

/-- The machine right after the assignment `this.status = status`. -/
def assignStatus (status : String) (m : Machine) : Machine :=
  { m with request := { m.request with status := status } }

/-- While a `forEach` over the array at `arr` runs: that array is allocated, so
is the one `this.observers` points at, and the array at `arr` still begins
with the entries `L` it had when the loop started. -/
def Snap (arr : Nat) (L : List ObsId) (m : Machine) : Prop :=
  arr < m.heap.length ∧ m.WF ∧ L <+: m.arrayAt arr

/-- The act neither subscribes nor unsubscribes `o`. -/
def Act.avoids (o : ObsId) : Act → Prop
  | .subscribe x => x ≠ o
  | .unsubscribe x => x ≠ o

instance (o : ObsId) (a : Act) : Decidable (a.avoids o) := by
  cases a <;> unfold Act.avoids <;> infer_instance

/-- The reference is valid and `o` occurs `c` times in the observer list. -/
def Subscribed (o : ObsId) (c : Nat) (m : Machine) : Prop :=
  m.WF ∧ m.observerList.count o = c

/-- Successive calls `subscribe(o1); ...; subscribe(ok)`. -/
def subscribeAll : List ObsId → Machine → Machine
  | [], m => m
  | o :: os, m => subscribeAll os (RideRequest.subscribe o m)

/-- The text `Rider.update` writes for a name and a status. -/
def greeting (name status : String) : String :=
  "Hello " ++ name ++ ", your ride is now: " ++ status

/-- The objects of the page: `const rider = new Rider("Alice")` is the only
observer object there is. -/
def pageObjects : Objects := fun _ => .rider { name := "Alice" }

/-- A page with a second kind of object: observer `1` reacts to every update by
unsubscribing observer `2` and subscribing observer `7`; all others are riders. -/
def busyObjects : Objects := fun o =>
  if o = 1 then .scripted (fun _ => [.unsubscribe 2, .subscribe 7])
  else .rider { name := "Alice" }

/-- A page where observer `1` reacts to every update by subscribing observer
`7`; all others are riders. -/
def growingObjects : Objects := fun o =>
  if o = 1 then .scripted (fun _ => [.subscribe 7])
  else .rider { name := "Alice" }

/-- A request with observers `0`, `1`, `2` subscribed in that order after
construction. -/
def threeSubscribed : Machine :=
  subscribeAll [0, 1, 2] RideRequest.new

/-- The literal the service operation of a command returns. -/
def Command.literal : Command → String
  | .BookRideCommand => "Booked"
  | .CancelRideCommand => "Canceled"
  | .RateRideCommand => "Rated"

/-- The service call `this.service.<op>()` a command makes in `execute`. -/
def Command.service : Command → Machine → String × Machine
  | .BookRideCommand, m => RideService.bookRide m
  | .CancelRideCommand, m => RideService.cancelRide m
  | .RateRideCommand, m => RideService.rateRide m

/-- Execute a sequence of commands, first to last. -/
def runCommands (w : Objects) : List Command → Machine → Machine
  | [], m => m
  | c :: cs, m => runCommands w cs (c.execute w m)

/-- The module-level objects of the page side by side: the request with the
page text and console (`machine`), the `fareCalculator`, and the fares handed
to `alert` so far. -/
structure Page where
  machine : Machine
  fareCalculator : FareCalculator
  alerts : List ℚ
  deriving DecidableEq

/-- `fareCalculator.setStrategy(strategy)` as a step of the page. -/
def Page.setStrategy (strategy : FareStrategy) (p : Page) : Page :=
  { p with fareCalculator := p.fareCalculator.setStrategy strategy }

/-- `fareCalculator.calculateFare(distance)` as a step of the page: the result
and the page afterwards. -/
def Page.calculateFare (distance : ℚ) (p : Page) : Except JsError ℚ × Page :=
  (p.fareCalculator.calculateFare distance, p)

/-- The `change` handler of `fareSelector` as a step of the page:
`setStrategy`, `calculateFare(5)`, then `alert` with the fare (no alert when
`calculateFare` throws). -/
def Page.fareChange (value : String) (p : Page) : Page :=
  let p1 := p.setStrategy (selectStrategy value)
  match p1.calculateFare 5 with
  | (.ok fare, p2) => { p2 with alerts := p2.alerts ++ [fare] }
  | (.error _, p2) => p2

/-! ## Basic facts about the heap operations -/

section Lemmas

theorem arrayAt_subscribe_self (o : ObsId) (m : Machine) (h : m.WF) :
    (RideRequest.subscribe o m).arrayAt m.request.observers = m.observerList ++ [o] := by
  unfold Machine.WF at h
  simp [RideRequest.subscribe, Machine.arrayAt, h]

theorem arrayAt_subscribe_ne (o : ObsId) (m : Machine) (a : Nat) (h : a ≠ m.request.observers) :
    (RideRequest.subscribe o m).arrayAt a = m.arrayAt a := by
  simp [RideRequest.subscribe, Machine.arrayAt, List.getElem?_set_ne (Ne.symm h)]

theorem arrayAt_unsubscribe_old (o : ObsId) (m : Machine) (a : Nat) (h : a < m.heap.length) :
    (RideRequest.unsubscribe o m).arrayAt a = m.arrayAt a := by
  simp [RideRequest.unsubscribe, Machine.arrayAt, List.getElem?_append_left h]

theorem observerList_subscribe (o : ObsId) (m : Machine) (h : m.WF) :
    (RideRequest.subscribe o m).observerList = m.observerList ++ [o] := by
  have := arrayAt_subscribe_self o m h
  simpa [Machine.observerList, RideRequest.subscribe] using this

theorem observerList_unsubscribe (o : ObsId) (m : Machine) :
    (RideRequest.unsubscribe o m).observerList = m.observerList.filter (fun x => x != o) := by
  simp [RideRequest.unsubscribe, Machine.observerList, Machine.arrayAt]

theorem WF_subscribe (o : ObsId) (m : Machine) (h : m.WF) : (RideRequest.subscribe o m).WF := by
  unfold Machine.WF at *
  simpa [RideRequest.subscribe] using h

theorem WF_unsubscribe (o : ObsId) (m : Machine) : (RideRequest.unsubscribe o m).WF := by
  simp [Machine.WF, RideRequest.unsubscribe]

theorem Snap_subscribe {arr : Nat} {L : List ObsId} {m : Machine} (o : ObsId)
    (h : Snap arr L m) : Snap arr L (RideRequest.subscribe o m) := by
  obtain ⟨ha, hwf, hp⟩ := h
  refine ⟨?_, WF_subscribe o m hwf, ?_⟩
  · simpa [RideRequest.subscribe] using ha
  · by_cases hEq : arr = m.request.observers
    · subst hEq
      rw [arrayAt_subscribe_self o m hwf]
      exact hp.trans (List.prefix_append _ _)
    · rw [arrayAt_subscribe_ne o m arr hEq]
      exact hp

theorem Snap_unsubscribe {arr : Nat} {L : List ObsId} {m : Machine} (o : ObsId)
    (h : Snap arr L m) : Snap arr L (RideRequest.unsubscribe o m) := by
  obtain ⟨ha, _, hp⟩ := h
  refine ⟨?_, WF_unsubscribe o m, ?_⟩
  · simp only [RideRequest.unsubscribe, List.length_append, List.length_singleton]
    omega
  · rw [arrayAt_unsubscribe_old o m arr ha]
    exact hp

theorem Snap_act {arr : Nat} {L : List ObsId} {m : Machine} (a : Act)
    (h : Snap arr L m) : Snap arr L (a.run m) := by
  cases a with
  | subscribe o => exact Snap_subscribe o h
  | unsubscribe o => exact Snap_unsubscribe o h

theorem Snap_runActs {arr : Nat} {L : List ObsId} (as : List Act) :
    ∀ {m : Machine}, Snap arr L m → Snap arr L (runActs as m) := by
  induction as with
  | nil => intro m h; exact h
  | cons a as ih => intro m h; exact ih (Snap_act a h)

/-- Calls made from inside `update` leave status, console, page text and the
record of invocations alone. -/
theorem act_frame (a : Act) (m : Machine) :
    (a.run m).request.status = m.request.status ∧ (a.run m).calls = m.calls ∧
      (a.run m).console = m.console ∧ (a.run m).rideStatus = m.rideStatus := by
  cases a <;> simp [Act.run, RideRequest.subscribe, RideRequest.unsubscribe]

theorem runActs_frame (as : List Act) :
    ∀ m : Machine, (runActs as m).request.status = m.request.status ∧
      (runActs as m).calls = m.calls ∧ (runActs as m).console = m.console ∧
      (runActs as m).rideStatus = m.rideStatus := by
  induction as with
  | nil => intro m; simp [runActs]
  | cons a as ih =>
    intro m
    obtain ⟨h1, h2, h3, h4⟩ := ih (a.run m)
    obtain ⟨g1, g2, g3, g4⟩ := act_frame a m
    simp only [runActs]
    exact ⟨h1.trans g1, h2.trans g2, h3.trans g3, h4.trans g4⟩

/-- The state after `observer.update(status)`: the invocation is recorded and
the acts of the object run. -/
theorem update_eq (w : Objects) (o : ObsId) (s : String) (m : Machine) :
    Observer.update w o s m =
      runActs ((w o).acts s)
        (match w o with
          | .rider r => r.update s { m with calls := m.calls ++ [(o, s)] }
          | .scripted _ => { m with calls := m.calls ++ [(o, s)] }) := by
  unfold Observer.update
  cases w o <;> simp [Observer.acts, runActs]

theorem update_frame (w : Objects) (o : ObsId) (s : String) (m : Machine) :
    (Observer.update w o s m).request.status = m.request.status ∧
      (Observer.update w o s m).calls = m.calls ++ [(o, s)] ∧
      (Observer.update w o s m).console = m.console := by
  unfold Observer.update
  cases w o with
  | rider r => simp [Rider.update]
  | scripted body =>
    obtain ⟨h1, h2, h3, _⟩ := runActs_frame (body s) { m with calls := m.calls ++ [(o, s)] }
    exact ⟨h1, h2, h3⟩

theorem Snap_update {arr : Nat} {L : List ObsId} {m : Machine} (w : Objects) (o : ObsId)
    (s : String) (h : Snap arr L m) : Snap arr L (Observer.update w o s m) := by
  unfold Observer.update
  cases w o with
  | rider r => exact h
  | scripted body => exact Snap_runActs (body s) h

/-- An object whose `update` makes no call on the request leaves heap and
request as they are. -/
theorem update_inert (w : Objects) (o : ObsId) (s : String) (m : Machine)
    (h : (w o).acts s = []) :
    (Observer.update w o s m).heap = m.heap ∧ (Observer.update w o s m).request = m.request := by
  rw [update_eq, h]
  cases w o <;> simp [runActs, Rider.update]

/-- Reading entry `k` of a snapshotted array. -/
theorem Snap_read {arr : Nat} {L : List ObsId} {m : Machine} (h : Snap arr L m) (k : Nat)
    (hk : k < L.length) : (m.arrayAt arr)[k]? = some (L.get ⟨k, hk⟩) := by
  obtain ⟨t, ht⟩ := h.2.2
  rw [← ht, List.getElem?_append_left hk, List.getElem?_eq_getElem hk]
  rfl

/-- The `forEach` loop under a general invariant: from index `k` on, it calls
`update` on entries `k, k+1, ...` of the snapshot `L`, whatever the bodies do
to the observer list meanwhile. -/
theorem forEachFrom_spec (w : Objects) (arr : Nat) (L : List ObsId) (P : Machine → Prop)
    (hP : ∀ o ∈ L, ∀ s m, P m → P (Observer.update w o s m)) :
    ∀ (n k : Nat) (m : Machine), Snap arr L m → k + n = L.length → P m →
      Snap arr L (forEachFrom w arr n k m) ∧ P (forEachFrom w arr n k m) ∧
      (forEachFrom w arr n k m).request.status = m.request.status ∧
      (forEachFrom w arr n k m).console = m.console ∧
      (forEachFrom w arr n k m).calls =
        m.calls ++ (L.drop k).map (fun o => (o, m.request.status)) := by
  intro n
  induction n with
  | zero =>
    intro k m hs hk hp
    have : L.length ≤ k := by omega
    simp [forEachFrom, hs, hp, List.drop_eq_nil_of_le this]
  | succ n ih =>
    intro k m hs hk hp
    have hlt : k < L.length := by omega
    simp only [forEachFrom, Snap_read hs k hlt]
    obtain ⟨f1, f2, f3⟩ := update_frame w (L.get ⟨k, hlt⟩) m.request.status m
    obtain ⟨i1, i2, i3, i4, i5⟩ :=
      ih (k + 1) (Observer.update w (L.get ⟨k, hlt⟩) m.request.status m)
        (Snap_update w _ _ hs) (by omega)
        (hP _ (List.get_mem L k hlt) _ _ hp)
    refine ⟨i1, i2, i3.trans f1, i4.trans f3, ?_⟩
    rw [i5, f2, f1, List.drop_eq_getElem_cons hlt]
    simp only [List.map_cons, List.append_assoc, List.singleton_append, List.get_eq_getElem]

/-- What `notify()` does: exactly the entries of the observer list as it was at
the start are called, once each, in order, with the (unchanged) status; an
invariant of the `update` calls on those entries is carried through. -/
theorem notify_spec (w : Objects) (m : Machine) (P : Machine → Prop)
    (hP : ∀ o ∈ m.observerList, ∀ s m', P m' → P (Observer.update w o s m')) (hp : P m) :
    P (RideRequest.notify w m) ∧
      (RideRequest.notify w m).request.status = m.request.status ∧
      (RideRequest.notify w m).console = m.console ∧
      (RideRequest.notify w m).calls =
        m.calls ++ m.observerList.map (fun o => (o, m.request.status)) := by
  by_cases hwf : m.WF
  · have hs : Snap m.request.observers m.observerList m := ⟨hwf, hwf, List.prefix_rfl⟩
    obtain ⟨_, h2, h3, h4, h5⟩ :=
      forEachFrom_spec w m.request.observers m.observerList P hP m.observerList.length 0 m hs
        (by omega) hp
    exact ⟨h2, h3, h4, by simpa [RideRequest.notify] using h5⟩
  · have hnil : m.observerList = [] := by
      unfold Machine.WF at hwf
      simp [Machine.observerList, Machine.arrayAt, List.getElem?_eq_none (Nat.le_of_not_lt hwf)]
    simp [RideRequest.notify, hnil, forEachFrom, hp]

theorem setStatus_spec (w : Objects) (s : String) (m : Machine) (P : Machine → Prop)
    (hP : ∀ o ∈ m.observerList, ∀ s' m', P m' → P (Observer.update w o s' m'))
    (hp : P (assignStatus s m)) :
    P (RideRequest.setStatus w s m) ∧
      (RideRequest.setStatus w s m).request.status = s ∧
      (RideRequest.setStatus w s m).console = m.console ∧
      (RideRequest.setStatus w s m).calls = m.calls ++ m.observerList.map (fun o => (o, s)) := by
  have h := notify_spec w (assignStatus s m) P hP hp
  exact h

theorem setStatus_calls (w : Objects) (s : String) (m : Machine) :
    (RideRequest.setStatus w s m).request.status = s ∧
      (RideRequest.setStatus w s m).console = m.console ∧
      (RideRequest.setStatus w s m).calls = m.calls ++ m.observerList.map (fun o => (o, s)) :=
  (setStatus_spec w s m (fun _ => True) (fun _ _ _ _ _ => trivial) trivial).2

/-! ### Counting invocations -/

theorem callsTo_append (o : ObsId) (c1 c2 : List (ObsId × String)) :
    callsTo o (c1 ++ c2) = callsTo o c1 ++ callsTo o c2 := by
  simp [callsTo]

theorem callsTo_map (o : ObsId) (s : String) (L : List ObsId) :
    callsTo o (L.map (fun x => (x, s))) = List.replicate (L.count o) s := by
  induction L with
  | nil => simp [callsTo]
  | cons x xs ih =>
    by_cases hx : x = o
    · subst hx
      simp only [List.map_cons, List.count_cons_self, List.replicate_succ]
      rw [← ih]
      simp [callsTo]
    · have hne : (x == o) = false := by simpa using hx
      rw [List.count_cons_of_ne (Ne.symm hx), ← ih]
      simp [callsTo, List.filter_cons, hne]

theorem callsTo_setStatus (w : Objects) (s : String) (m : Machine) (o : ObsId) :
    callsTo o (RideRequest.setStatus w s m).calls =
      callsTo o m.calls ++ List.replicate (m.observerList.count o) s := by
  rw [(setStatus_calls w s m).2.2, callsTo_append, callsTo_map]

/-! ### Calls that do not concern an observer keep its subscription count -/

theorem Subscribed_act {o : ObsId} {c : Nat} {m : Machine} (a : Act) (ha : a.avoids o)
    (h : Subscribed o c m) : Subscribed o c (a.run m) := by
  obtain ⟨hwf, hc⟩ := h
  cases a with
  | subscribe x =>
    refine ⟨WF_subscribe x m hwf, ?_⟩
    have hx : x ≠ o := ha
    simp only [Act.run]
    rw [observerList_subscribe x m hwf, List.count_append, hc]
    simp [List.count_cons_of_ne (Ne.symm hx)]
  | unsubscribe x =>
    refine ⟨WF_unsubscribe x m, ?_⟩
    have hx : x ≠ o := ha
    simp only [Act.run]
    rw [observerList_unsubscribe, List.count_filter, hc]
    simpa using Ne.symm hx

theorem Subscribed_runActs {o : ObsId} {c : Nat} (as : List Act) :
    ∀ {m : Machine}, (∀ a ∈ as, a.avoids o) → Subscribed o c m → Subscribed o c (runActs as m) := by
  induction as with
  | nil => intro m _ h; exact h
  | cons a as ih =>
    intro m hav h
    exact ih (fun b hb => hav b (List.mem_cons_of_mem _ hb))
      (Subscribed_act a (hav a (List.mem_cons_self _ _)) h)

theorem Subscribed_update {o : ObsId} {c : Nat} {m : Machine} (w : Objects) (x : ObsId)
    (s : String) (hav : ∀ a ∈ (w x).acts s, a.avoids o) (h : Subscribed o c m) :
    Subscribed o c (Observer.update w x s m) := by
  rw [update_eq]
  apply Subscribed_runActs _ hav
  cases w x <;> exact h

theorem Subscribed_setStatus {o : ObsId} {c : Nat} {m : Machine} (w : Objects) (s : String)
    (hav : ∀ x s', ∀ a ∈ (w x).acts s', a.avoids o) (h : Subscribed o c m) :
    Subscribed o c (RideRequest.setStatus w s m) :=
  (setStatus_spec w s m (Subscribed o c)
    (fun x _ s' _ hm => Subscribed_update w x s' (hav x s') hm) h).1

theorem Absent_act {o : ObsId} {m : Machine} (a : Act) (ha : a ≠ .subscribe o)
    (h : Subscribed o 0 m) : Subscribed o 0 (a.run m) := by
  cases a with
  | subscribe x =>
    have hx : x ≠ o := fun e => ha (by rw [e])
    exact Subscribed_act (.subscribe x) hx h
  | unsubscribe x =>
    by_cases hx : x = o
    · subst hx
      refine ⟨WF_unsubscribe x m, ?_⟩
      simp only [Act.run]
      rw [observerList_unsubscribe]
      exact List.count_eq_zero.2 (by simp [List.mem_filter])
    · exact Subscribed_act (.unsubscribe x) hx h

theorem Absent_runActs {o : ObsId} (as : List Act) :
    ∀ {m : Machine}, Act.subscribe o ∉ as → Subscribed o 0 m → Subscribed o 0 (runActs as m) := by
  induction as with
  | nil => intro m _ h; exact h
  | cons a as ih =>
    intro m hav h
    have h1 : a ≠ .subscribe o := fun e => hav (by rw [e]; exact List.mem_cons_self _ _)
    exact ih (fun hb => hav (List.mem_cons_of_mem _ hb)) (Absent_act a h1 h)

/-- One `setStatus` when the list holds a single `Rider`. -/
theorem setStatus_single_rider (w : Objects) (o : ObsId) (r : Rider) (s : String) (m : Machine)
    (hw : w o = .rider r) (hl : m.observerList = [o]) :
    RideRequest.setStatus w s m =
      { m with
        request := { m.request with status := s }
        calls := m.calls ++ [(o, s)]
        rideStatus := greeting r.name s } := by
  have hl1 : m.observerList = [o] := hl
  unfold Machine.observerList Machine.arrayAt at hl
  simp [RideRequest.setStatus, RideRequest.notify, Machine.observerList, Machine.arrayAt, hl,
    forEachFrom, Observer.update, hw, Rider.update, greeting]

theorem setStatusAll_single_rider (w : Objects) (o : ObsId) (r : Rider) (hw : w o = .rider r) :
    ∀ (ss : List String) (hne : ss ≠ []) (m : Machine), m.observerList = [o] →
      (setStatusAll w ss m).rideStatus = greeting r.name (ss.getLast hne) := by
  intro ss
  induction ss with
  | nil => intro hne; exact absurd rfl hne
  | cons s ss ih =>
    intro hne m hl
    have hstep := setStatus_single_rider w o r s m hw hl
    by_cases hss : ss = []
    · subst hss
      simp [setStatusAll, hstep]
    · have hl2 : (RideRequest.setStatus w s m).observerList = [o] := by
        rw [hstep]; exact hl
      simp only [setStatusAll]
      rw [ih hss _ hl2, List.getLast_cons hss]

theorem setStatusAll_calls (w : Objects) (o : ObsId)
    (hkeep : ∀ x s, ∀ a ∈ (w x).acts s, a.avoids o) :
    ∀ (ss : List String) (m : Machine), Subscribed o 1 m →
      callsTo o (setStatusAll w ss m).calls = callsTo o m.calls ++ ss := by
  intro ss
  induction ss with
  | nil => intro m _; simp [setStatusAll]
  | cons s ss ih =>
    intro m h
    simp only [setStatusAll]
    rw [ih _ (Subscribed_setStatus w s hkeep h), callsTo_setStatus, h.2]
    simp

theorem setStatusAll_status (w : Objects) :
    ∀ (ss : List String) (hne : ss ≠ []) (m : Machine),
      (setStatusAll w ss m).request.status = ss.getLast hne := by
  intro ss
  induction ss with
  | nil => intro hne; exact absurd rfl hne
  | cons s ss ih =>
    intro hne m
    by_cases hss : ss = []
    · subst hss
      simpa [setStatusAll] using (setStatus_calls w s m).1
    · simp only [setStatusAll]
      rw [ih hss, List.getLast_cons hss]

theorem busyObjects_avoids (o : ObsId) (h2 : o ≠ 2) (h7 : o ≠ 7) :
    ∀ x s, ∀ a ∈ (busyObjects x).acts s, a.avoids o := by
  intro x s a ha
  unfold busyObjects at ha
  by_cases hx : x = 1
  · simp only [hx, if_true, Observer.acts, List.mem_cons, List.mem_singleton,
      List.not_mem_nil, or_false] at ha
    rcases ha with rfl | rfl
    · exact fun e => h2 e.symm
    · exact fun e => h7 e.symm
  · simp [hx, Observer.acts] at ha

theorem subscribeAll_observerList :
    ∀ (L : List ObsId) (m : Machine), m.WF →
      (subscribeAll L m).observerList = m.observerList ++ L := by
  intro L
  induction L with
  | nil => intro m _; simp [subscribeAll]
  | cons o os ih =>
    intro m hwf
    simp only [subscribeAll]
    rw [ih _ (WF_subscribe o m hwf), observerList_subscribe o m hwf]
    simp

/-- A `setStatus` over entries that never touch the request leaves the
observer list as it is. -/
theorem setStatus_inert (w : Objects) (s : String) (m : Machine)
    (h : ∀ x ∈ m.observerList, ∀ s', (w x).acts s' = []) :
    (RideRequest.setStatus w s m).observerList = m.observerList := by
  have hP := (setStatus_spec w s m
    (fun m' => m'.heap = m.heap ∧ m'.request.observers = m.request.observers)
    (fun x hx s' m' hm => by
      obtain ⟨h1, h2⟩ := update_inert w x s' m' (h x hx s')
      exact ⟨h1.trans hm.1, (congrArg RideRequest.observers h2).trans hm.2⟩)
    ⟨rfl, rfl⟩).1
  unfold Machine.observerList Machine.arrayAt
  rw [hP.1, hP.2]

theorem runOps_status (w : Objects) :
    ∀ (ops : List Op) (m : Machine),
      (runOps w ops m).request.status = m.request.status ∨
        ∃ s, Op.setStatus s ∈ ops ∧ (runOps w ops m).request.status = s := by
  intro ops
  induction ops with
  | nil => intro m; exact Or.inl rfl
  | cons op ops ih =>
    intro m
    simp only [runOps]
    rcases ih (op.run w m) with h | ⟨s, hs, h⟩
    · cases op with
      | subscribe o => exact Or.inl h
      | unsubscribe o => exact Or.inl h
      | setStatus s =>
        exact Or.inr ⟨s, List.mem_cons_self _ _, h.trans (setStatus_calls w s m).1⟩
    · exact Or.inr ⟨s, List.mem_cons_of_mem _ hs, h⟩

/-! ### Commands -/

theorem execute_eq (w : Objects) (c : Command) (m : Machine) :
    c.execute w m = RideRequest.setStatus w (c.service m).1 (c.service m).2 := by
  cases c <;> rfl

theorem service_frame (c : Command) (m : Machine) :
    (c.service m).1 = c.literal ∧ (c.service m).2.observerList = m.observerList ∧
      (c.service m).2.calls = m.calls ∧ (c.service m).2.request = m.request ∧
      (c.service m).2.heap = m.heap := by
  cases c <;> exact ⟨rfl, rfl, rfl, rfl, rfl⟩

theorem execute_calls (w : Objects) (c : Command) (m : Machine) :
    (c.execute w m).request.status = c.literal ∧
      (c.execute w m).calls = m.calls ++ m.observerList.map (fun o => (o, c.literal)) := by
  obtain ⟨h1, h2, h3, _, _⟩ := service_frame c m
  obtain ⟨g1, _, g3⟩ := setStatus_calls w (c.service m).1 (c.service m).2
  rw [execute_eq]
  refine ⟨g1.trans h1, ?_⟩
  rw [g3, h1, h2, h3]

theorem execute_inert (w : Objects) (c : Command) (m : Machine)
    (h : ∀ x ∈ m.observerList, ∀ s', (w x).acts s' = []) :
    (c.execute w m).observerList = m.observerList := by
  obtain ⟨_, h2, _, _, _⟩ := service_frame c m
  rw [execute_eq, setStatus_inert w _ _ (by rw [h2]; exact h), h2]

theorem runCommands_status (w : Objects) :
    ∀ (cs : List Command) (hne : cs ≠ []) (m : Machine),
      (runCommands w cs m).request.status = (cs.getLast hne).literal := by
  intro cs
  induction cs with
  | nil => intro hne; exact absurd rfl hne
  | cons c cs ih =>
    intro hne m
    by_cases hcs : cs = []
    · subst hcs
      simpa [runCommands] using (execute_calls w c m).1
    · simp only [runCommands]
      rw [ih hcs, List.getLast_cons hcs]

theorem literal_ne_pending (c : Command) : c.literal ≠ "Pending" := by
  cases c <;> decide

end Lemmas

/-! ## The claims -/

/-- C1: on a request where observer `o` is subscribed exactly once, and no
`update` body ever subscribes or unsubscribes `o`, the calls
`setStatus(s1), ..., setStatus(sN)` (N > 0) invoke `o.update` exactly N times,
with arguments `s1, ..., sN` in that order; the last of these updates carries
`sN`, the status of the request is `sN` afterwards, and when `o` is a `Rider`
and the only entry of the list the text on the page is the greeting for `sN`. -/
theorem C1_setStatus_sequence_updates (w : Objects) (m : Machine) (o : ObsId)
    (ss : List String) (hne : ss ≠ []) (hwf : m.WF) (hone : m.observerList.count o = 1)
    (hkeep : ∀ x s, ∀ a ∈ (w x).acts s, a.avoids o) :
    callsTo o (setStatusAll w ss m).calls = callsTo o m.calls ++ ss ∧
      ((callsTo o (setStatusAll w ss m).calls).drop (callsTo o m.calls).length).length
        = ss.length ∧
      (callsTo o (setStatusAll w ss m).calls).getLast? = some (ss.getLast hne) ∧
      (setStatusAll w ss m).request.status = ss.getLast hne ∧
      (∀ r, w o = .rider r → m.observerList = [o] →
        (setStatusAll w ss m).rideStatus = greeting r.name (ss.getLast hne)) := by
  have hcalls := setStatusAll_calls w o hkeep ss m ⟨hwf, hone⟩
  refine ⟨hcalls, ?_, ?_, setStatusAll_status w ss hne m, ?_⟩
  · rw [hcalls]; simp
  · rw [hcalls, List.getLast?_append_of_ne_nil _ hne, List.getLast?_eq_getLast _ hne]
  · intro r hw hl
    exact setStatusAll_single_rider w o r hw ss hne m hl

/-- C1 at a concrete request: observers `0`, `1`, `2` subscribed, observer `1`
re-arranging the list on every update, statuses "Booked" then "Rated". -/
theorem C1_setStatus_sequence_updates_witness :
    threeSubscribed.WF ∧ threeSubscribed.observerList.count 0 = 1 ∧
      callsTo 0 (setStatusAll busyObjects ["Booked", "Rated"] threeSubscribed).calls
        = ["Booked", "Rated"] ∧
      (setStatusAll busyObjects ["Booked", "Rated"] threeSubscribed).request.status = "Rated" :=
  have h := C1_setStatus_sequence_updates busyObjects threeSubscribed 0 ["Booked", "Rated"]
    (by decide) (by decide) (by decide) (busyObjects_avoids 0 (by decide) (by decide))
  ⟨by decide, by decide, h.1, h.2.2.2.1⟩

/-- C2: after `unsubscribe(o)` the observer list is the old one without any
occurrence of `o`; a later `setStatus(s)`, whatever `subscribe`/`unsubscribe`
calls other than `subscribe(o)` come in between, does not invoke `o.update`;
and `setStatus(s)` right after the `unsubscribe` still calls every other entry
of the list, once per occurrence and in order. -/
theorem C2_unsubscribe_stops_updates (w : Objects) (m : Machine) (o : ObsId) (s : String)
    (mid : List Act) (hmid : Act.subscribe o ∉ mid) :
    o ∉ (RideRequest.unsubscribe o m).observerList ∧
      (RideRequest.unsubscribe o m).observerList = m.observerList.filter (fun x => x != o) ∧
      callsTo o (RideRequest.setStatus w s (runActs mid (RideRequest.unsubscribe o m))).calls
        = callsTo o m.calls ∧
      (RideRequest.setStatus w s (RideRequest.unsubscribe o m)).calls
        = m.calls ++ (m.observerList.filter (fun x => x != o)).map (fun x => (x, s)) ∧
      (∀ x, x ≠ o →
        callsTo x (RideRequest.setStatus w s (RideRequest.unsubscribe o m)).calls
          = callsTo x m.calls ++ List.replicate (m.observerList.count x) s) := by
  have hlist := observerList_unsubscribe o m
  have habs : o ∉ (RideRequest.unsubscribe o m).observerList := by
    rw [hlist]; simp [List.mem_filter]
  have h0 : Subscribed o 0 (RideRequest.unsubscribe o m) :=
    ⟨WF_unsubscribe o m, List.count_eq_zero.2 habs⟩
  have hmid0 := Absent_runActs mid hmid h0
  refine ⟨habs, hlist, ?_, ?_, ?_⟩
  · rw [callsTo_setStatus, hmid0.2, (runActs_frame mid _).2.1]
    simp [RideRequest.unsubscribe]
  · rw [(setStatus_calls w s _).2.2, hlist]
    simp [RideRequest.unsubscribe]
  · intro x hx
    rw [callsTo_setStatus, hlist, List.count_filter (by simpa using hx)]
    simp [RideRequest.unsubscribe]

/-- C2 at a concrete request: observers `0`, `1`, `2`; observer `2` is
unsubscribed, then `5` is subscribed and `0` unsubscribed, then the status is
set. -/
theorem C2_unsubscribe_stops_updates_witness :
    Act.subscribe 2 ∉ [Act.subscribe 5, Act.unsubscribe 0] ∧
      callsTo 2 (RideRequest.setStatus busyObjects "Booked"
        (runActs [Act.subscribe 5, Act.unsubscribe 0]
          (RideRequest.unsubscribe 2 threeSubscribed))).calls = [] ∧
      (RideRequest.setStatus busyObjects "Booked"
        (RideRequest.unsubscribe 2 threeSubscribed)).calls = [(0, "Booked"), (1, "Booked")] :=
  have h := C2_unsubscribe_stops_updates busyObjects threeSubscribed 2 "Booked"
    [Act.subscribe 5, Act.unsubscribe 0] (by decide)
  ⟨by decide, h.2.2.1, h.2.2.2.1⟩

/-- C3: in every state of the request, executing `BookRideCommand` leaves the
status `"Booked"` after one notification cycle in which every entry of the
observer list receives one `update("Booked")`, in order; `CancelRideCommand`
does the same with `"Canceled"` and `RateRideCommand` with `"Rated"`.  The
functions are total and look at neither the previous status nor the history,
so no order of commands is rejected. -/
theorem C3_commands_set_status (w : Objects) (m : Machine) :
    ((Command.execute w .BookRideCommand m).request.status = "Booked" ∧
        (Command.execute w .BookRideCommand m).calls
          = m.calls ++ m.observerList.map (fun o => (o, "Booked")) ∧
        (Command.execute w .BookRideCommand m).console = m.console ++ ["Ride booked"]) ∧
      ((Command.execute w .CancelRideCommand m).request.status = "Canceled" ∧
        (Command.execute w .CancelRideCommand m).calls
          = m.calls ++ m.observerList.map (fun o => (o, "Canceled")) ∧
        (Command.execute w .CancelRideCommand m).console = m.console ++ ["Ride canceled"]) ∧
      ((Command.execute w .RateRideCommand m).request.status = "Rated" ∧
        (Command.execute w .RateRideCommand m).calls
          = m.calls ++ m.observerList.map (fun o => (o, "Rated")) ∧
        (Command.execute w .RateRideCommand m).console = m.console ++ ["Ride rated"]) := by
  refine ⟨?_, ?_, ?_⟩
  · exact setStatus_calls w "Booked" (RideService.bookRide m).2 |>.imp id (fun h => ⟨h.2, h.1⟩)
  · exact setStatus_calls w "Canceled" (RideService.cancelRide m).2 |>.imp id
      (fun h => ⟨h.2, h.1⟩)
  · exact setStatus_calls w "Rated" (RideService.rateRide m).2 |>.imp id (fun h => ⟨h.2, h.1⟩)

/-- C4, as stated, fails: on a calculator whose strategy was never set,
`calculateFare(5)` does not fail with an error named `NoStrategySelected`. -/
theorem C4_no_NoStrategySelected_counterexample :
    ¬ ∃ e : JsError, FareCalculator.new.calculateFare 5 = .error e ∧
        e.name = "NoStrategySelected" := by
  rintro ⟨e, he, hn⟩
  simp only [FareCalculator.calculateFare, FareCalculator.new, Except.error.injEq] at he
  subst he
  revert hn
  decide

/-- C4, amended: for every distance, `calculateFare` on a calculator on which
`setStrategy` was never called fails with the engine's `TypeError` (reading
`calculate` off the `undefined` strategy): it returns no number and fails with
no other kind of error. -/
theorem C4_calculateFare_unset_typeError (d : ℚ) :
    FareCalculator.new.calculateFare d = .error .typeError ∧
      (∀ x : ℚ, FareCalculator.new.calculateFare d ≠ .ok x) ∧
      (∀ e : JsError, FareCalculator.new.calculateFare d = .error e → e.name = "TypeError") := by
  refine ⟨rfl, ?_, ?_⟩
  · intro x h
    simp [FareCalculator.calculateFare, FareCalculator.new] at h
  · intro e h
    simp only [FareCalculator.calculateFare, FareCalculator.new, Except.error.injEq] at h
    subst h
    rfl

/-- C5: for every distance `d ≥ 0`, `calculate(d)` is `d * 10` for `NormalFare`,
`d * 15` for `SurgePricing` and `d * 8` for `DiscountedFare`, and
`calculateFare(d)` of a calculator with that strategy set returns the same
value. -/
theorem C5_fares_exact (fc : FareCalculator) (d : ℚ) (hd : 0 ≤ d) :
    (FareStrategy.NormalFare.calculate d = .ok (d * 10) ∧
        (fc.setStrategy .NormalFare).calculateFare d = FareStrategy.NormalFare.calculate d) ∧
      (FareStrategy.SurgePricing.calculate d = .ok (d * 15) ∧
        (fc.setStrategy .SurgePricing).calculateFare d
          = FareStrategy.SurgePricing.calculate d) ∧
      (FareStrategy.DiscountedFare.calculate d = .ok (d * 8) ∧
        (fc.setStrategy .DiscountedFare).calculateFare d
          = FareStrategy.DiscountedFare.calculate d) := by
  have _ := hd
  exact ⟨⟨rfl, rfl⟩, ⟨rfl, rfl⟩, ⟨rfl, rfl⟩⟩

/-- C5 at distance 5/2 on a fresh calculator: the fares are 25, 75/2 and 20. -/
theorem C5_fares_exact_witness :
    (0 : ℚ) ≤ 5 / 2 ∧
      (FareStrategy.NormalFare.calculate (5 / 2) = .ok (5 / 2 * 10) ∧
        (FareCalculator.new.setStrategy .NormalFare).calculateFare (5 / 2)
          = FareStrategy.NormalFare.calculate (5 / 2)) :=
  ⟨by norm_num, (C5_fares_exact FareCalculator.new (5 / 2) (by norm_num)).1⟩

/-- C6: the change handler installs `SurgePricing` for `"surge"`,
`DiscountedFare` for `"discount"` and `NormalFare` for every other identifier,
and the fare it computes at the wired distance 5 is 75, 40 and 50
respectively; `"normal"` and `"xyz"` are among the others. -/
theorem C6_fare_selection (fc : FareCalculator) (v : String) :
    (v = "surge" →
        fareSelectorChange fc v = ({ strategy := some .SurgePricing }, .ok 75)) ∧
      (v = "discount" →
        fareSelectorChange fc v = ({ strategy := some .DiscountedFare }, .ok 40)) ∧
      (v ≠ "surge" → v ≠ "discount" →
        fareSelectorChange fc v = ({ strategy := some .NormalFare }, .ok 50)) ∧
      fareSelectorChange fc "normal" = ({ strategy := some .NormalFare }, .ok 50) ∧
      fareSelectorChange fc "xyz" = ({ strategy := some .NormalFare }, .ok 50) := by
  have hn : ∀ u : String, u ≠ "surge" → u ≠ "discount" →
      fareSelectorChange fc u = ({ strategy := some .NormalFare }, .ok 50) := by
    intro u h1 h2
    simp only [fareSelectorChange, selectStrategy, h1, h2, if_false,
      FareCalculator.setStrategy, FareCalculator.calculateFare, FareStrategy.calculate]
    norm_num
  refine ⟨?_, ?_, hn v, hn "normal" (by decide) (by decide), hn "xyz" (by decide) (by decide)⟩
  · intro h
    subst h
    simp only [fareSelectorChange, selectStrategy, if_true,
      FareCalculator.setStrategy, FareCalculator.calculateFare, FareStrategy.calculate]
    norm_num
  · intro h
    subst h
    have hne : ("discount" : String) ≠ "surge" := by decide
    simp only [fareSelectorChange, selectStrategy, hne, if_false, if_true,
      FareCalculator.setStrategy, FareCalculator.calculateFare, FareStrategy.calculate]
    norm_num

/-- C6 at the identifier `"premium"`, which is neither `"surge"` nor
`"discount"`: the handler falls back to `NormalFare` and the fare is 50. -/
theorem C6_fare_selection_witness :
    ("premium" : String) ≠ "surge" ∧ ("premium" : String) ≠ "discount" ∧
      fareSelectorChange FareCalculator.new "premium"
        = ({ strategy := some .NormalFare }, .ok 50) :=
  ⟨by decide, by decide,
    (C6_fare_selection FareCalculator.new "premium").2.2.1 (by decide) (by decide)⟩

/-- C7: `subscribe` appends to the observer list without looking for
duplicates, so `subscribe(o1), ..., subscribe(ok)` on a new request give the
list `[o1, ..., ok]`; one `setStatus(s)` calls `update(s)` once per entry of the
list, in list order; an observer with `c` entries receives `c` updates; and a
second `setStatus(s)` with the same status notifies every entry of the list
again (the very same list, when no entry's `update` touches the request). -/
theorem C7_notify_each_entry_in_order (w : Objects) (m : Machine) (s : String) (o : ObsId)
    (L : List ObsId) :
    (subscribeAll L RideRequest.new).observerList = L ∧
      (m.WF → (RideRequest.subscribe o m).observerList = m.observerList ++ [o]) ∧
      (RideRequest.setStatus w s m).calls = m.calls ++ m.observerList.map (fun x => (x, s)) ∧
      callsTo o (RideRequest.setStatus w s m).calls
        = callsTo o m.calls ++ List.replicate (m.observerList.count o) s ∧
      (RideRequest.setStatus w s (RideRequest.setStatus w s m)).calls
        = m.calls ++ m.observerList.map (fun x => (x, s))
          ++ (RideRequest.setStatus w s m).observerList.map (fun x => (x, s)) ∧
      ((∀ x ∈ m.observerList, ∀ s', (w x).acts s' = []) →
        (RideRequest.setStatus w s (RideRequest.setStatus w s m)).calls
          = m.calls ++ m.observerList.map (fun x => (x, s))
            ++ m.observerList.map (fun x => (x, s))) := by
  have h2 : (RideRequest.setStatus w s (RideRequest.setStatus w s m)).calls
      = m.calls ++ m.observerList.map (fun x => (x, s))
        ++ (RideRequest.setStatus w s m).observerList.map (fun x => (x, s)) := by
    rw [(setStatus_calls w s _).2.2, (setStatus_calls w s m).2.2]
  refine ⟨?_, observerList_subscribe o m, (setStatus_calls w s m).2.2,
    callsTo_setStatus w s m o, h2, ?_⟩
  · have h := subscribeAll_observerList L RideRequest.new (by decide)
    simpa [Machine.observerList, Machine.arrayAt, RideRequest.new] using h
  · intro hin
    rw [h2, setStatus_inert w s m hin]

/-- C7 on the page's objects with rider `0` subscribed twice and rider `1`
once: every `setStatus("Booked")` makes the three calls again. -/
theorem C7_notify_each_entry_in_order_witness :
    (subscribeAll [0, 1, 0] RideRequest.new).WF ∧
      (∀ x ∈ (subscribeAll [0, 1, 0] RideRequest.new).observerList,
        ∀ s', (pageObjects x).acts s' = []) ∧
      (RideRequest.setStatus pageObjects "Booked"
        (RideRequest.setStatus pageObjects "Booked"
          (subscribeAll [0, 1, 0] RideRequest.new))).calls
        = [(0, "Booked"), (1, "Booked"), (0, "Booked"),
           (0, "Booked"), (1, "Booked"), (0, "Booked")] :=
  ⟨by decide, fun _ _ _ => rfl,
    (C7_notify_each_entry_in_order pageObjects (subscribeAll [0, 1, 0] RideRequest.new)
      "Booked" 0 []).2.2.2.2.2 (fun _ _ _ => rfl)⟩

/-- C8: `update(s)` of a rider named `n` writes exactly
`"Hello " + n + ", your ride is now: " + s` to the page, also when invoked
through the observer interface; and after the page's setup (rider "Alice"
subscribed to a new request) a click on the book button leaves status
`"Booked"` and the text `"Hello Alice, your ride is now: Booked"`. -/
theorem C8_rider_update_text (w : Objects) (o : ObsId) (n s : String) (m : Machine)
    (hw : w o = .rider { name := n }) :
    (Rider.update { name := n } s m).rideStatus = "Hello " ++ n ++ ", your ride is now: " ++ s ∧
      (Observer.update w o s m).rideStatus = "Hello " ++ n ++ ", your ride is now: " ++ s ∧
      (bookBtnClick pageObjects (appSetup o)).request.status = "Booked" ∧
      (bookBtnClick pageObjects (appSetup o)).rideStatus
        = "Hello Alice, your ride is now: Booked" := by
  have hl : (appSetup o).observerList = [o] := by
    have h := observerList_subscribe o RideRequest.new (by decide)
    simpa [appSetup, Machine.observerList, Machine.arrayAt, RideRequest.new] using h
  have hbook : bookBtnClick pageObjects (appSetup o)
      = RideRequest.setStatus pageObjects "Booked" (RideService.bookRide (appSetup o)).2 := rfl
  have hstep := setStatus_single_rider pageObjects o { name := "Alice" } "Booked"
    (RideService.bookRide (appSetup o)).2 rfl hl
  refine ⟨rfl, ?_, ?_, ?_⟩
  · simp [Observer.update, hw, Rider.update]
  · rw [hbook, hstep]
  · rw [hbook, hstep]
    show greeting "Alice" "Booked" = "Hello Alice, your ride is now: Booked"
    decide

/-- C8 for the page's rider at identity `0` and status "Rated". -/
theorem C8_rider_update_text_witness :
    pageObjects 0 = .rider { name := "Alice" } ∧
      (Observer.update pageObjects 0 "Rated" RideRequest.new).rideStatus
        = "Hello Alice, your ride is now: Rated" :=
  ⟨rfl, (C8_rider_update_text pageObjects 0 "Alice" "Rated" RideRequest.new rfl).2.1⟩

/-- C9: one `notify()` invokes `update` on exactly the entries the observer
list had when `notify` started, once per entry and in that order, whatever
`subscribe` and `unsubscribe` calls the `update` bodies make on the request
meanwhile: each observer is called as many times as it occurred in the list at
the start, so one that is only added during the cycle is not called in it and
one that is removed during the cycle is still called. -/
theorem C9_notify_snapshot (w : Objects) (m : Machine) :
    (RideRequest.notify w m).calls
        = m.calls ++ m.observerList.map (fun o => (o, m.request.status)) ∧
      (∀ o, callsTo o (RideRequest.notify w m).calls
        = callsTo o m.calls ++ List.replicate (m.observerList.count o) m.request.status) ∧
      (∀ o, o ∉ m.observerList →
        callsTo o (RideRequest.notify w m).calls = callsTo o m.calls) := by
  have h := (notify_spec w m (fun _ => True) (fun _ _ _ _ _ => trivial) trivial).2.2.2
  have hc : ∀ o, callsTo o (RideRequest.notify w m).calls
      = callsTo o m.calls ++ List.replicate (m.observerList.count o) m.request.status := by
    intro o
    rw [h, callsTo_append, callsTo_map]
  refine ⟨h, hc, ?_⟩
  intro o ho
  rw [hc o, List.count_eq_zero.2 ho]
  simp

/-- C9 on a list `[0, 1, 2]` where observer `1` unsubscribes `2` and subscribes
`7` during its update: `7` is in the list afterwards but was not called, `2` is
no longer in the list but was called. -/
theorem C9_notify_snapshot_witness :
    7 ∉ threeSubscribed.observerList ∧
      7 ∈ (RideRequest.notify busyObjects threeSubscribed).observerList ∧
      callsTo 7 (RideRequest.notify busyObjects threeSubscribed).calls = [] ∧
      2 ∉ (RideRequest.notify busyObjects threeSubscribed).observerList ∧
      callsTo 2 (RideRequest.notify busyObjects threeSubscribed).calls = ["Pending"] :=
  ⟨by decide, by decide,
    (C9_notify_snapshot busyObjects threeSubscribed).2.2 7 (by decide),
    by decide,
    (C9_notify_snapshot busyObjects threeSubscribed).2.1 2⟩

/-- C10: after any finite sequence of `subscribe`, `unsubscribe` and
`setStatus` calls on a newly constructed request, the status is `"Pending"` or
the argument of a `setStatus` call of that sequence. -/
theorem C10_status_from_setStatus (w : Objects) (ops : List Op) :
    (runOps w ops RideRequest.new).request.status = "Pending" ∨
      ∃ s, Op.setStatus s ∈ ops ∧ (runOps w ops RideRequest.new).request.status = s :=
  runOps_status w ops RideRequest.new

/-- C11, as stated, fails: on the request with entries `[0, 1, 2]` (`n = 3`)
where observer `1` subscribes observer `7` during its update, executing
`BookRideCommand` twice makes 3 + 4 = 7 `update` calls, not `2 * 3`. -/
theorem C11_twice_not_2n_counterexample :
    threeSubscribed.observerList.length = 3 ∧ threeSubscribed.calls = [] ∧
      (Command.execute growingObjects .BookRideCommand
        (Command.execute growingObjects .BookRideCommand threeSubscribed)).calls.length = 7 ∧
      (Command.execute growingObjects .BookRideCommand
        (Command.execute growingObjects .BookRideCommand threeSubscribed)).calls.length
        ≠ 2 * threeSubscribed.observerList.length := by
  decide

/-- C11, amended: for each of the three commands and every request, executing
the command twice in a row leaves the same status as executing it once; each
execution calls `update` once per entry of the observer list as it stands when
that execution starts, so with `n` entries before the first and `n'` entries
after it the two executions make `n + n'` calls.  When no entry's `update`
touches the request (as no `Rider`'s does), `n' = n`: the calls are `2 * n`
instead of `n`, and the two outcomes differ as soon as `n > 0`. -/
theorem C11_execute_twice (w : Objects) (c : Command) (m : Machine) :
    (c.execute w (c.execute w m)).request.status = (c.execute w m).request.status ∧
      (c.execute w m).calls = m.calls ++ m.observerList.map (fun o => (o, c.literal)) ∧
      (c.execute w (c.execute w m)).calls
        = m.calls ++ m.observerList.map (fun o => (o, c.literal))
          ++ (c.execute w m).observerList.map (fun o => (o, c.literal)) ∧
      (c.execute w m).calls.length = m.calls.length + m.observerList.length ∧
      (c.execute w (c.execute w m)).calls.length
        = m.calls.length + m.observerList.length + (c.execute w m).observerList.length ∧
      ((∀ x ∈ m.observerList, ∀ s', (w x).acts s' = []) →
        (c.execute w (c.execute w m)).calls
          = m.calls ++ m.observerList.map (fun o => (o, c.literal))
            ++ m.observerList.map (fun o => (o, c.literal)) ∧
        (c.execute w (c.execute w m)).calls.length
          = m.calls.length + 2 * m.observerList.length ∧
        (0 < m.observerList.length →
          (c.execute w (c.execute w m)).calls.length ≠ (c.execute w m).calls.length)) := by
  have h1 := execute_calls w c m
  have h2 := execute_calls w c (c.execute w m)
  have hc2 : (c.execute w (c.execute w m)).calls
      = m.calls ++ m.observerList.map (fun o => (o, c.literal))
        ++ (c.execute w m).observerList.map (fun o => (o, c.literal)) := by
    rw [h2.2, h1.2]
  have e1 : (c.execute w m).calls.length = m.calls.length + m.observerList.length := by
    rw [h1.2]; simp
  have e2 : (c.execute w (c.execute w m)).calls.length
      = m.calls.length + m.observerList.length + (c.execute w m).observerList.length := by
    rw [hc2]; simp; omega
  refine ⟨h2.1.trans h1.1.symm, h1.2, hc2, e1, e2, ?_⟩
  intro hin
  have hl := execute_inert w c m hin
  refine ⟨by rw [hc2, hl], by rw [e2, hl]; omega, ?_⟩
  intro hpos
  rw [e2, e1, hl]
  omega

/-- C11, amended, on the page's objects with rider `0` subscribed twice and
rider `1` once: cancelling twice leaves "Canceled" and makes six calls, not
three. -/
theorem C11_execute_twice_witness :
    (∀ x ∈ (subscribeAll [0, 1, 0] RideRequest.new).observerList,
        ∀ s', (pageObjects x).acts s' = []) ∧
      0 < (subscribeAll [0, 1, 0] RideRequest.new).observerList.length ∧
      (Command.execute pageObjects .CancelRideCommand
        (Command.execute pageObjects .CancelRideCommand
          (subscribeAll [0, 1, 0] RideRequest.new))).request.status = "Canceled" ∧
      (Command.execute pageObjects .CancelRideCommand
        (Command.execute pageObjects .CancelRideCommand
          (subscribeAll [0, 1, 0] RideRequest.new))).calls.length = 0 + 2 * 3 ∧
      (Command.execute pageObjects .CancelRideCommand
        (Command.execute pageObjects .CancelRideCommand
          (subscribeAll [0, 1, 0] RideRequest.new))).calls.length
        ≠ (Command.execute pageObjects .CancelRideCommand
          (subscribeAll [0, 1, 0] RideRequest.new)).calls.length :=
  have h := C11_execute_twice pageObjects .CancelRideCommand
    (subscribeAll [0, 1, 0] RideRequest.new)
  have hin := h.2.2.2.2.2 (fun _ _ _ => rfl)
  ⟨fun _ _ _ => rfl, by decide, by decide, hin.2.1, hin.2.2 (by decide)⟩

/-- C12: `calculate` of `NormalFare`, `SurgePricing` and `DiscountedFare` is a
function of the distance alone that always returns a number, is additive
(`calculate(a + b) = calculate(a) + calculate(b)`) and homogeneous, maps `0` to
`0`, and maps every `d ≥ 0` to a value `≥ 0`. -/
theorem C12_calculate_linear (s : FareStrategy) (hs : s ≠ .base) (a b d : ℚ) :
    (∃ x y, s.calculate a = .ok x ∧ s.calculate b = .ok y ∧
        s.calculate (a + b) = .ok (x + y)) ∧
      (∃ x, s.calculate b = .ok x ∧ s.calculate (a * b) = .ok (a * x)) ∧
      s.calculate 0 = .ok 0 ∧
      (0 ≤ d → ∃ v, s.calculate d = .ok v ∧ 0 ≤ v) := by
  cases s with
  | base => exact absurd rfl hs
  | NormalFare =>
    refine ⟨⟨a * 10, b * 10, rfl, rfl, ?_⟩, ⟨b * 10, rfl, ?_⟩, ?_, ?_⟩
    · simp only [FareStrategy.calculate]; congr 1; ring
    · simp only [FareStrategy.calculate]; congr 1; ring
    · simp only [FareStrategy.calculate]; congr 1; ring
    · intro hd; exact ⟨d * 10, rfl, by positivity⟩
  | SurgePricing =>
    refine ⟨⟨a * 15, b * 15, rfl, rfl, ?_⟩, ⟨b * 15, rfl, ?_⟩, ?_, ?_⟩
    · simp only [FareStrategy.calculate]; congr 1; ring
    · simp only [FareStrategy.calculate]; congr 1; ring
    · simp only [FareStrategy.calculate]; congr 1; ring
    · intro hd; exact ⟨d * 15, rfl, by positivity⟩
  | DiscountedFare =>
    refine ⟨⟨a * 8, b * 8, rfl, rfl, ?_⟩, ⟨b * 8, rfl, ?_⟩, ?_, ?_⟩
    · simp only [FareStrategy.calculate]; congr 1; ring
    · simp only [FareStrategy.calculate]; congr 1; ring
    · simp only [FareStrategy.calculate]; congr 1; ring
    · intro hd; exact ⟨d * 8, rfl, by positivity⟩

/-- C12 for `SurgePricing` at distances 2 and 3/2: the fare of the sum 7/2 is
the sum of the fares, 30 + 45/2. -/
theorem C12_calculate_linear_witness :
    FareStrategy.SurgePricing ≠ FareStrategy.base ∧ (0 : ℚ) ≤ 4 ∧
      (∃ x y, FareStrategy.SurgePricing.calculate 2 = .ok x ∧
        FareStrategy.SurgePricing.calculate (3 / 2) = .ok y ∧
        FareStrategy.SurgePricing.calculate (2 + 3 / 2) = .ok (x + y)) ∧
      (∃ v, FareStrategy.SurgePricing.calculate 4 = .ok v ∧ 0 ≤ v) :=
  have h := C12_calculate_linear .SurgePricing (by decide) 2 (3 / 2) 4
  ⟨by decide, by norm_num, h.1, h.2.2.2 (by norm_num)⟩

/-- C13: `setStrategy` stores whatever strategy it is given, the base class
included, and replaces the previous one: after `setStrategy(s1)` and then
`setStrategy(s2)`, `calculateFare(d)` is `s2.calculate(d)` whatever `s1` was,
and the calculator is the same as after `setStrategy(s2)` alone. -/
theorem C13_setStrategy_replaces (fc : FareCalculator) (s1 s2 : FareStrategy) (d : ℚ) :
    ((fc.setStrategy s1).setStrategy s2).calculateFare d = s2.calculate d ∧
      (fc.setStrategy s1).setStrategy s2 = fc.setStrategy s2 ∧
      (fc.setStrategy s2).strategy = some s2 :=
  ⟨rfl, rfl, rfl⟩

/-- C14: `unsubscribe(o)` turns the observer list `L` into `L` with the entries
equal to `o` deleted: the result is a sublist of `L` (relative order kept) that
does not contain `o` and has every other observer as often as `L` has it.
Hence `unsubscribe` is idempotent, changes nothing in the list when `o` is not
in it, and `subscribe(o)` followed by `unsubscribe(o)` gives back `L` exactly
when `o` was not in `L`. -/
theorem C14_unsubscribe_filter (m : Machine) (o : ObsId) :
    (RideRequest.unsubscribe o m).observerList = m.observerList.filter (fun x => x != o) ∧
      o ∉ (RideRequest.unsubscribe o m).observerList ∧
      (RideRequest.unsubscribe o m).observerList.Sublist m.observerList ∧
      (∀ x, x ≠ o →
        (RideRequest.unsubscribe o m).observerList.count x = m.observerList.count x) ∧
      (RideRequest.unsubscribe o (RideRequest.unsubscribe o m)).observerList
        = (RideRequest.unsubscribe o m).observerList ∧
      (o ∉ m.observerList → (RideRequest.unsubscribe o m).observerList = m.observerList) ∧
      (m.WF →
        ((RideRequest.unsubscribe o (RideRequest.subscribe o m)).observerList = m.observerList
          ↔ o ∉ m.observerList)) := by
  have hl := observerList_unsubscribe o m
  have hself : ∀ L : List ObsId, o ∉ L → L.filter (fun x => x != o) = L := by
    intro L hL
    apply List.filter_eq_self.2
    intro a ha
    have : a ≠ o := fun e => hL (e ▸ ha)
    simpa using this
  have habs : o ∉ (RideRequest.unsubscribe o m).observerList := by
    rw [hl]; simp [List.mem_filter]
  refine ⟨hl, habs, ?_, ?_, ?_, ?_, ?_⟩
  · rw [hl]; exact List.filter_sublist _
  · intro x hx
    rw [hl, List.count_filter (by simpa using hx)]
  · rw [observerList_unsubscribe o (RideRequest.unsubscribe o m)]
    exact hself _ habs
  · intro ho
    rw [hl]; exact hself _ ho
  · intro hwf
    rw [observerList_unsubscribe, observerList_subscribe o m hwf, List.filter_append]
    have hlast : List.filter (fun x => x != o) [o] = [] := by simp
    rw [hlast, List.append_nil]
    constructor
    · intro h ho
      have : o ∈ m.observerList.filter (fun x => x != o) := by rw [h]; exact ho
      simp [List.mem_filter] at this
    · exact hself _

/-- C14 on the list `[0, 1, 2]`: observer `5` is not in it, so subscribing and
then unsubscribing `5` gives the list back. -/
theorem C14_unsubscribe_filter_witness :
    threeSubscribed.WF ∧ 5 ∉ threeSubscribed.observerList ∧
      (RideRequest.unsubscribe 5 (RideRequest.subscribe 5 threeSubscribed)).observerList
        = threeSubscribed.observerList ∧
      (RideRequest.unsubscribe 5 threeSubscribed).observerList = threeSubscribed.observerList :=
  have h := C14_unsubscribe_filter threeSubscribed 5
  ⟨by decide, by decide, (h.2.2.2.2.2.2 (by decide)).2 (by decide),
    h.2.2.2.2.2.1 (by decide)⟩

/-- C15: after any finite sequence of Book/Cancel/Rate commands on a newly
constructed request the status is one of `"Pending"`, `"Booked"`,
`"Canceled"`, `"Rated"`; with no command executed it is `"Pending"`, and once
a command has executed (from any state) it is the literal of the most recent
command, hence not `"Pending"`. -/
theorem C15_command_statuses (w : Objects) (cs : List Command) (m : Machine) :
    (runCommands w cs RideRequest.new).request.status
        ∈ ["Pending", "Booked", "Canceled", "Rated"] ∧
      (cs = [] → (runCommands w cs RideRequest.new).request.status = "Pending") ∧
      (∀ hne : cs ≠ [],
        (runCommands w cs m).request.status = (cs.getLast hne).literal ∧
        (runCommands w cs m).request.status ≠ "Pending") := by
  have hlast : ∀ hne : cs ≠ [], ∀ m' : Machine,
      (runCommands w cs m').request.status = (cs.getLast hne).literal ∧
      (runCommands w cs m').request.status ≠ "Pending" := by
    intro hne m'
    have h := runCommands_status w cs hne m'
    exact ⟨h, by rw [h]; exact literal_ne_pending _⟩
  refine ⟨?_, ?_, fun hne => hlast hne m⟩
  · by_cases hcs : cs = []
    · subst hcs
      simp [runCommands, RideRequest.new]
    · rw [(hlast hcs RideRequest.new).1]
      cases cs.getLast hcs <;> simp [Command.literal]
  · intro hcs
    subst hcs
    rfl

/-- C15 for the sequence Cancel, Book on the page after setup: the status is
"Booked". -/
theorem C15_command_statuses_witness :
    [Command.CancelRideCommand, Command.BookRideCommand] ≠ [] ∧
      (runCommands pageObjects [Command.CancelRideCommand, Command.BookRideCommand]
        (appSetup 0)).request.status = "Booked" ∧
      (runCommands pageObjects [Command.CancelRideCommand, Command.BookRideCommand]
        (appSetup 0)).request.status ≠ "Pending" :=
  ⟨by decide,
    (C15_command_statuses pageObjects [Command.CancelRideCommand, Command.BookRideCommand]
      (appSetup 0)).2.2 (by decide)⟩

/-- C16: frame properties.  `subscribe` and `unsubscribe` leave the status and
the record of `update` invocations as they are; when no entry of the observer
list touches the request in its `update`, `setStatus` and the execution of a
command leave the observer list as it is; and `setStrategy`, `calculateFare`
and the fare handler leave the request, the page text, the console and the
record of invocations as they are. -/
theorem C16_frame (w : Objects) (m : Machine) (o : ObsId) (s : String) (c : Command)
    (p : Page) (st : FareStrategy) (d : ℚ) (v : String) :
    ((RideRequest.subscribe o m).request.status = m.request.status ∧
        (RideRequest.subscribe o m).calls = m.calls) ∧
      ((RideRequest.unsubscribe o m).request.status = m.request.status ∧
        (RideRequest.unsubscribe o m).calls = m.calls) ∧
      ((∀ x ∈ m.observerList, ∀ s', (w x).acts s' = []) →
        (RideRequest.setStatus w s m).observerList = m.observerList ∧
        (c.execute w m).observerList = m.observerList) ∧
      ((p.setStrategy st).machine = p.machine ∧
        (p.calculateFare d).2.machine = p.machine ∧
        (p.fareChange v).machine = p.machine) := by
  refine ⟨⟨rfl, rfl⟩, ⟨rfl, rfl⟩, ?_, rfl, rfl, ?_⟩
  · intro hin
    exact ⟨setStatus_inert w s m hin, execute_inert w c m hin⟩
  · unfold Page.fareChange Page.calculateFare
    simp only
    cases (Page.setStrategy (selectStrategy v) p).fareCalculator.calculateFare 5 <;> rfl

/-- C16 on the page after setup: booking leaves the observer list `[0]`. -/
theorem C16_frame_witness :
    (∀ x ∈ (appSetup 0).observerList, ∀ s', (pageObjects x).acts s' = []) ∧
      (RideRequest.setStatus pageObjects "Booked" (appSetup 0)).observerList
        = (appSetup 0).observerList ∧
      (Command.execute pageObjects .BookRideCommand (appSetup 0)).observerList
        = (appSetup 0).observerList :=
  ⟨fun _ _ _ => rfl,
    (C16_frame pageObjects (appSetup 0) 0 "Booked" .BookRideCommand
      { machine := appSetup 0, fareCalculator := FareCalculator.new, alerts := [] }
      .NormalFare 5 "normal").2.2.1 (fun _ _ _ => rfl)⟩

/-- C17: for every distance `d ≥ 0` the three fares are ordered,
`DiscountedFare ≤ NormalFare ≤ SurgePricing`, strictly so when `d > 0`; and
each of the three strategies is monotone: `d1 ≤ d2` gives
`calculate(d1) ≤ calculate(d2)`. -/
theorem C17_fare_order (d d1 d2 : ℚ) (hd : 0 ≤ d) (h12 : d1 ≤ d2) :
    (∃ x y z, FareStrategy.DiscountedFare.calculate d = .ok x ∧
        FareStrategy.NormalFare.calculate d = .ok y ∧
        FareStrategy.SurgePricing.calculate d = .ok z ∧
        x ≤ y ∧ y ≤ z ∧ (0 < d → x < y ∧ y < z)) ∧
      (∀ s : FareStrategy, s ≠ .base →
        ∃ u v, s.calculate d1 = .ok u ∧ s.calculate d2 = .ok v ∧ u ≤ v) := by
  constructor
  · refine ⟨d * 8, d * 10, d * 15, rfl, rfl, rfl, ?_, ?_, ?_⟩
    · nlinarith
    · nlinarith
    · intro hpos
      constructor <;> nlinarith
  · intro s hs
    cases s with
    | base => exact absurd rfl hs
    | NormalFare => exact ⟨d1 * 10, d2 * 10, rfl, rfl, by nlinarith⟩
    | SurgePricing => exact ⟨d1 * 15, d2 * 15, rfl, rfl, by nlinarith⟩
    | DiscountedFare => exact ⟨d1 * 8, d2 * 8, rfl, rfl, by nlinarith⟩

/-- C17 at distance 5, and between distances 2 and 5: the fares are 40, 50 and
75. -/
theorem C17_fare_order_witness :
    (0 : ℚ) ≤ 5 ∧ (2 : ℚ) ≤ 5 ∧
      (∃ x y z, FareStrategy.DiscountedFare.calculate 5 = .ok x ∧
        FareStrategy.NormalFare.calculate 5 = .ok y ∧
        FareStrategy.SurgePricing.calculate 5 = .ok z ∧
        x ≤ y ∧ y ≤ z ∧ ((0 : ℚ) < 5 → x < y ∧ y < z)) :=
  ⟨by norm_num, by norm_num, (C17_fare_order 5 2 5 (by norm_num) (by norm_num)).1⟩

end RideApp
